import Mathlib

/-!
Verification of the Mongoose extension attacher (src/lib/Extension.js).

The development shallowly embeds the single source file:

* name derivation from the configured table name (lines 22-29);
* the attacher as a transformer on the method registries
  `schema.methods` / `schema.statics` (lines 16-151);
* the semantics of each generated closure, with the delegated
  persistence calls kept abstract as a behaviour record and callback
  completion modelled as an explicit outcome value;
* the lazy, memoised construction of the auxiliary extension model
  (`getExtension`, lines 170-227) as explicit state passing.
-/

namespace MongooseExtension

/-- JS `String.prototype.toLowerCase` (characterwise, as used on the
ASCII table names of this repository). Source line 22: `TYPE`. -/
def jsToLowerCase (s : String) : String :=
  String.mk (s.data.map Char.toLower)

/-- Source line 23: `tableName.slice(0,1).toUpperCase() + tableName.slice(1)`. -/
def upperFirst (s : String) : String :=
  match s.data with
  | [] => ""
  | c :: cs => String.mk (c.toUpper :: cs)

/-- Source line 24: `tableName.slice(0,1).toLowerCase() + tableName.slice(1)`. -/
def lowerFirst (s : String) : String :=
  match s.data with
  | [] => ""
  | c :: cs => String.mk (c.toLower :: cs)

/-- Source line 26: `CREATE_METHOD = 'create' + upperTableName`. -/
def CREATE_METHOD (tableName : String) : String := "create" ++ upperFirst tableName

/-- Source line 27: `FIND_METHOD = 'find' + upperTableName`. -/
def FIND_METHOD (tableName : String) : String := "find" ++ upperFirst tableName

/-- Source line 28: `REMOVE_METHOD = 'remove' + upperTableName`. -/
def REMOVE_METHOD (tableName : String) : String := "remove" ++ upperFirst tableName

/-- Source line 29: `FIND_BY_METHOD = 'findBy' + upperTableName`. -/
def FIND_BY_METHOD (tableName : String) : String := "findBy" ++ upperFirst tableName

/-- The two method registries of a Mongoose schema, by registered key.
`schema.methods` and `schema.statics` are JS objects mapping a method
name to a function; we track the key sets as lists of keys. -/
structure Schema where
  methods : List String
  statics : List String
deriving Repr, DecidableEq

/-- JS property assignment `obj[k] = f` on a registry: a fresh key is
appended, an existing key is overwritten in place (the key set does not
change). -/
def assignKey (keys : List String) (k : String) : List String :=
  if k ∈ keys then keys else keys ++ [k]

/-- A field declaration in a Mongoose schema fragment: the extension
schema declares `modelId` as a plain string field and `type` as a
string field carrying a default value of `TYPE`, lines 176-179. -/
inductive FieldSpec where
  | plainString
  | stringWithDefault (d : String)
deriving Repr, DecidableEq

/-- Plugin options: `tableName` is required (line 16 throws on a falsy
value; for a string option that means absent or empty), `schema` is an
optional field-definition fragment merged into the extension schema at
line 184. -/
structure PluginOptions where
  tableName : Option String
  schemaFragment : Option (List (String × FieldSpec))
deriving Repr, DecidableEq

/-- JS truthiness test `!pluginOptions.tableName` for the string-valued
option: absent (`undefined`) and the empty string are falsy. -/
def tableNameFalsy (t : Option String) : Bool :=
  match t with
  | none => true
  | some s => s = ""

/-- The two synchronous configuration errors the attacher can throw. -/
inductive ConfigError where
  | missingTableName   -- line 17
  | notUnique          -- line 32
deriving Repr, DecidableEq

/-- The attacher body (lines 16-151) as a registry transformer: it
returns the error thrown, if any, together with the registry state when
control leaves the function.  Both guards run before any assignment, so
on either error the registry is returned untouched; otherwise the eleven
assignments of lines 43-149 are applied in source order. -/
def Extension (schema : Schema) (opts : PluginOptions) : Option ConfigError × Schema :=
  if tableNameFalsy opts.tableName then
    (some .missingTableName, schema)
  else
    let tableName := opts.tableName.getD ""
    let upperTableName := upperFirst tableName
    let lowerTableName := lowerFirst tableName
    let createM := CREATE_METHOD tableName
    let findM := FIND_METHOD tableName
    let removeM := REMOVE_METHOD tableName
    let findByM := FIND_BY_METHOD tableName
    if createM ∈ schema.methods then
      (some .notUnique, schema)
    else
      let methods := assignKey schema.methods createM        -- line 43
      let statics := assignKey schema.statics createM        -- line 53
      let methods := assignKey methods removeM               -- line 63
      let statics := assignKey statics removeM               -- line 73
      let methods := assignKey methods findM                 -- line 83
      let statics := assignKey statics findM                 -- line 94
      let statics := assignKey statics findByM               -- line 104
      let methods := assignKey methods lowerTableName        -- line 118
      let statics := assignKey statics lowerTableName        -- line 128
      let methods := assignKey methods upperTableName        -- line 138
      let statics := assignKey statics upperTableName        -- line 147
      (none, { methods := methods, statics := statics })

/-! ## Semantics of the generated closures

A JS options / document object is an association list from field name
to string value; property assignment prepends a binding and property
lookup takes the first binding for the key. -/

/-- A plain JS object of string-valued fields. -/
abbrev Obj : Type := List (String × String)

/-- Property lookup `o[k]`: `none` models an absent property. -/
def getField (o : Obj) (k : String) : Option String :=
  (List.find? (fun p => p.1 = k) o).map (fun p => p.2)

/-- Property assignment `o[k] = v` followed by any later lookups: the
new binding shadows older ones. -/
def setField (o : Obj) (k v : String) : Obj :=
  (k, v) :: o

/-- An owning-model document (or the model class itself when a static
is invoked on it): the only property the extension code reads from it
is `_id`. -/
structure MDoc where
  _id : String
deriving Repr, DecidableEq

/-- Completion of a generated operation: either the callback `next` is
invoked with an error slot and a result slot, or the handler throws
synchronously and the callback is never invoked. -/
inductive Outcome (α : Type) where
  | callback (err : Option String) (result : Option α)
  | thrown (msg : String)
deriving DecidableEq

/-- The persistence operations of the auxiliary extension model, kept
abstract: each takes the query object actually issued and yields the
error and result the persistence layer reports to its callback. -/
structure ExtDb where
  create : Obj → Option String × Option Obj
  find : Obj → Option String × Option (List Obj)
  findOne : Obj → Option String × Option Obj
  remove : Obj → Option String × Option Nat

/-- The owning model class: its `_id` property (read when the class
itself is handed to `createExtension` as the owner, line 54) and its
`findOne` restricted to a filter on `_id` as issued by `findModel`
(line 188). -/
structure ModelCls where
  doc : MDoc
  findOneById : Option String → Option String × Option Obj

/-- Lines 191-205, `extensionSchema.statics.createExtension`: when the
options argument is omitted (the caller passed the callback in its
place, lines 192-195) options becomes the empty object; `modelId` is
set to the owner `_id` (line 196); the persistence `create` result is
forwarded unmodified to `next` (lines 198-204). -/
def createExtension (db : ExtDb) (model : MDoc) (options : Option Obj) : Outcome Obj :=
  let opts := options.getD []
  let opts := setField opts "modelId" model._id
  let r := db.create opts
  Outcome.callback r.1 r.2

/-- Lines 207-222, `extensionSchema.statics.removeExtension`: same
argument shuffle and `modelId` injection as `createExtension`, then the
persistence `remove` result is forwarded unmodified. -/
def removeExtension (db : ExtDb) (model : MDoc) (options : Option Obj) : Outcome Nat :=
  let opts := options.getD []
  let opts := setField opts "modelId" model._id
  let r := db.remove opts
  Outcome.callback r.1 r.2

/-- Lines 187-189, `extensionSchema.methods.findModel`: resolves the
owning record with `Model.findOne` filtered on `_id = this.modelId`,
passing the callback straight through. -/
def findModel (rec : Obj) (Model : ModelCls) : Option String × Option Obj :=
  Model.findOneById (getField rec "modelId")

/-- Lines 43-45, `schema.methods[CREATE_METHOD]`: delegates to
`createExtension` with the instance as owner. -/
def createMethodInstance (db : ExtDb) (this : MDoc) (options : Option Obj) : Outcome Obj :=
  createExtension db this options

/-- Lines 53-55, `schema.statics[CREATE_METHOD]`: takes no model
argument; the receiver `this` (the model class itself) is handed to
`createExtension` as the owner. -/
def createMethodStatic (db : ExtDb) (thisCls : ModelCls) (options : Option Obj) : Outcome Obj :=
  createExtension db thisCls.doc options

/-- Lines 63-65, `schema.methods[REMOVE_METHOD]`: delegates to
`removeExtension` with the instance as owner. -/
def removeMethodInstance (db : ExtDb) (this : MDoc) (options : Option Obj) : Outcome Nat :=
  removeExtension db this options

/-- Lines 73-75, `schema.statics[REMOVE_METHOD]`: the owning record is
an explicit first argument; the receiver is not used as the owner. -/
def removeMethodStatic (db : ExtDb) (model : MDoc) (options : Option Obj) : Outcome Nat :=
  removeExtension db model options

/-- Lines 83-86, `schema.methods[FIND_METHOD]`: sets
`options.modelId = this._id` (overwriting any caller-supplied value)
and issues `find`, forwarding the result unmodified. -/
def findMethodInstance (db : ExtDb) (this : MDoc) (options : Obj) : Outcome (List Obj) :=
  let opts := setField options "modelId" this._id
  let r := db.find opts
  Outcome.callback r.1 r.2

/-- Lines 94-96, `schema.statics[FIND_METHOD]`: issues `find` on the
caller-supplied options unchanged, forwarding the result unmodified. -/
def findMethodStatic (db : ExtDb) (options : Obj) : Outcome (List Obj) :=
  let r := db.find options
  Outcome.callback r.1 r.2

/-- The TypeError raised at line 107 when `result` is null or undefined
and `result.findModel` is accessed. -/
def findByNullMsg : String :=
  "TypeError: Cannot read property findModel of null"

/-- Lines 104-109, `schema.statics[FIND_BY_METHOD]`: issues `findOne`,
ignores the error its callback reports, and calls
`result.findModel(self, next)` on the result; a null result makes the
property access throw. -/
def findByMethodStatic (db : ExtDb) (self : ModelCls) (options : Obj) : Outcome Obj :=
  let r := db.findOne options
  match r.2 with
  | none => Outcome.thrown findByNullMsg
  | some result =>
    let q := findModel result self
    Outcome.callback q.1 q.2

/-- The outcome of the find-by handler as a function of the result slot
alone: line 107 consults only `result`, never the error its callback
received. -/
def findByFromResult (cls : ModelCls) : Option Obj → Outcome Obj
  | none => Outcome.thrown findByNullMsg
  | some rec => Outcome.callback (findModel rec cls).1 (findModel rec cls).2

/-! ## Lazy construction and memoisation of the extension model -/

/-- Lines 176-179, `extensionOptions`: the field fragment added to the
extension schema; `type` defaults to `TYPE`, `modelId` is a plain
string reference to the owner. -/
def extensionOptions (TYPE : String) : List (String × FieldSpec) :=
  [("type", FieldSpec.stringWithDefault TYPE), ("modelId", FieldSpec.plainString)]

/-- The auxiliary extension model handle produced by `getExtension`:
the db connection it was registered on, its `TYPE` static (line 174),
the name it was registered under (line 224) and the schema fields
accumulated by the `add` calls of lines 181-185. -/
structure ExtHandle where
  dbId : Nat
  TYPE : String
  registeredName : String
  fields : List (String × FieldSpec)
deriving Repr, DecidableEq

/-- The construction branch of `getExtension` (lines 172-224): derive
`TYPE` from the table name, add the `type` and `modelId` fields, then
the caller-supplied schema fragment if any, and register the model
under `TYPE` on the given db. -/
def buildExtension (opts : PluginOptions) (dbId : Nat) : ExtHandle :=
  let TYPE := jsToLowerCase (opts.tableName.getD "")
  { dbId := dbId
    TYPE := TYPE
    registeredName := TYPE
    fields := extensionOptions TYPE ++ (opts.schemaFragment.getD []) }

/-- Lines 170-227, `getExtension`, as explicit state passing over the
closure variable `extension`: returns the handle handed back, the new
state of the memo variable, and how many constructions this call
performed (0 or 1).  The `db` argument is only consulted when the memo
is empty. -/
def getExtension (opts : PluginOptions) (memo : Option ExtHandle) (dbId : Nat) :
    ExtHandle × Option ExtHandle × Nat :=
  match memo with
  | some ext => (ext, some ext, 0)
  | none =>
    let ext := buildExtension opts dbId
    (ext, some ext, 1)

/-- A finite sequence of invocations of generated methods: each
invocation calls `getExtension` once with the db of its receiver.
Returns the final memo state, the total number of constructions and
the handles returned to each invocation, in order. -/
def runCalls (opts : PluginOptions) (memo : Option ExtHandle) :
    List Nat → Option ExtHandle × Nat × List ExtHandle
  | [] => (memo, 0, [])
  | dbId :: rest =>
    let r := getExtension opts memo dbId
    let s := runCalls opts r.2.1 rest
    (s.1, r.2.2 + s.2.1, r.1 :: s.2.2)

/-- Lines 118-120 and 128-130, the lowerCamel accessor: invokes the
callback with a null error and the extension handle; no persistence
call is made. -/
def accessorMethodLower (ext : ExtHandle) : Outcome ExtHandle :=
  Outcome.callback none (some ext)

/-- Lines 138-140 and 147-149, the PascalCase accessor: returns the
extension handle directly, synchronously. -/
def accessorMethodUpper (ext : ExtHandle) : ExtHandle :=
  ext

/-- Mongoose materialises a created document by applying each schema
field default to a payload that lacks that field (collaborator
behaviour relied upon by the `default: TYPE` declaration of line
177). -/
def applyDefaults (fields : List (String × FieldSpec)) (o : Obj) : Obj :=
  List.foldl (fun acc f =>
    match f.2 with
    | FieldSpec.stringWithDefault d =>
        if getField acc f.1 = none then acc ++ [(f.1, d)] else acc
    | FieldSpec.plainString => acc) o fields

/-! ## Helper lemmas about property lookup -/

/-- Looking up a key just assigned yields the assigned value. -/
theorem getField_setField_same (o : Obj) (k v : String) :
    getField (setField o k v) k = some v := by
  simp [getField, setField]

/-- Assigning one key leaves lookups of a different key unchanged. -/
theorem getField_setField_other (o : Obj) (k k2 v : String) (h : k ≠ k2) :
    getField (setField o k v) k2 = getField o k2 := by
  simp [getField, setField, h]

/-- Lookup distributes over concatenation, preferring the left part. -/
theorem getField_append (a b : Obj) (k : String) :
    getField (a ++ b) k = (getField a k).or (getField b k) := by
  unfold getField
  rw [List.find?_append]
  cases List.find? (fun p => p.1 = k) a <;> simp

/-! ## Concrete persistence behaviours used for evaluations -/

/-- A persistence behaviour whose every operation reports an error and
a null result to its callback. -/
def errDb : ExtDb where
  create := fun _ => (some "boom", none)
  find := fun _ => (some "boom", none)
  findOne := fun _ => (some "boom", none)
  remove := fun _ => (some "boom", none)

/-- A persistence behaviour that succeeds and echoes the issued query
object back inside its result, making the issued query observable. -/
def echoDb : ExtDb where
  create := fun o => (none, some o)
  find := fun o => (none, some [o])
  findOne := fun o => (none, some o)
  remove := fun _ => (none, some 0)

/-- A persistence behaviour holding one auxiliary record whose
`modelId` is `abc123`. -/
def seededDb : ExtDb where
  create := fun o => (none, some o)
  find := fun o => (none, some [o])
  findOne := fun _ => (none, some [("_id", "b1"), ("modelId", "abc123")])
  remove := fun _ => (none, some 1)

/-- An owning model class that resolves identity `abc123` and nothing
else. -/
def dummyCls : ModelCls where
  doc := ⟨"owner1"⟩
  findOneById := fun v =>
    (none, if v = some "abc123" then some [("_id", "abc123")] else none)

/-! ## Claims -/

/-- C1 counterexample: with table name `Badge`, attachment succeeds but
the instance registry does not receive `findByBadge` (one of the five
claimed names), while both registries receive the extra PascalCase
accessor `Badge`, which is not among the five; so the claimed method
surface is wrong on both counts. -/
theorem C1_counterexample :
    (Extension ⟨[], []⟩ ⟨some "Badge", none⟩).1 = none ∧
    "findByBadge" ∉ (Extension ⟨[], []⟩ ⟨some "Badge", none⟩).2.methods ∧
    "Badge" ∈ (Extension ⟨[], []⟩ ⟨some "Badge", none⟩).2.methods ∧
    "Badge" ∈ (Extension ⟨[], []⟩ ⟨some "Badge", none⟩).2.statics ∧
    "Badge" ∉ ["createBadge", "findBadge", "removeBadge", "findByBadge", "badge"] := by
  decide

/-- C1 (amended): with table name `Badge`, attaching to empty
registries registers exactly `createBadge`, `removeBadge`, `findBadge`,
`badge`, `Badge` on the instance registry and exactly `createBadge`,
`removeBadge`, `findBadge`, `findByBadge`, `badge`, `Badge` on the
static registry, in source order. -/
theorem C1_registered_names :
    Extension ⟨[], []⟩ ⟨some "Badge", none⟩ =
      (none, ⟨["createBadge", "removeBadge", "findBadge", "badge", "Badge"],
              ["createBadge", "removeBadge", "findBadge", "findByBadge", "badge", "Badge"]⟩) := by
  decide

/-- C2 counterexample: when the persistence layer reports an error to
the find-by handler (error slot set, null result), the handler throws
instead of delivering the error through the callback. -/
theorem C2_counterexample :
    errDb.findOne [] = (some "boom", none) ∧
    findByMethodStatic errDb dummyCls [] = Outcome.thrown findByNullMsg :=
  ⟨rfl, rfl⟩

/-- C2 (amended): for the create, remove and find operations (instance
and static) the persistence outcome, error slot included, is forwarded
unmodified to the completion callback and nothing is thrown; the
lowerCamel accessor always calls back with a null error; the find-by
handler is the exception recorded in the counterexample. -/
theorem C2_errors_forwarded (db : ExtDb) (this : MDoc) (cls : ModelCls)
    (o : Obj) (o? : Option Obj) (ext : ExtHandle) :
    createMethodInstance db this o? =
      Outcome.callback (db.create (setField (o?.getD []) "modelId" this._id)).1
        (db.create (setField (o?.getD []) "modelId" this._id)).2 ∧
    createMethodStatic db cls o? =
      Outcome.callback (db.create (setField (o?.getD []) "modelId" cls.doc._id)).1
        (db.create (setField (o?.getD []) "modelId" cls.doc._id)).2 ∧
    removeMethodInstance db this o? =
      Outcome.callback (db.remove (setField (o?.getD []) "modelId" this._id)).1
        (db.remove (setField (o?.getD []) "modelId" this._id)).2 ∧
    removeMethodStatic db this o? =
      Outcome.callback (db.remove (setField (o?.getD []) "modelId" this._id)).1
        (db.remove (setField (o?.getD []) "modelId" this._id)).2 ∧
    findMethodInstance db this o =
      Outcome.callback (db.find (setField o "modelId" this._id)).1
        (db.find (setField o "modelId" this._id)).2 ∧
    findMethodStatic db o =
      Outcome.callback (db.find o).1 (db.find o).2 ∧
    accessorMethodLower ext = Outcome.callback none (some ext) :=
  ⟨rfl, rfl, rfl, rfl, rfl, rfl, rfl⟩

/-- Starting from a populated memo, every call returns the memoised
handle, performs no construction and leaves the memo untouched. -/
theorem runCalls_some (opts : PluginOptions) (e : ExtHandle) :
    ∀ dbs : List Nat, runCalls opts (some e) dbs = (some e, 0, dbs.map fun _ => e)
  | [] => rfl
  | d :: rest => by
    simp [runCalls, getExtension, runCalls_some opts e rest]

/-- C3: across any finite sequence of generated-method invocations the
auxiliary extension model is constructed at most once; once the memo is
populated it is never rewritten and every later call returns the same
handle; a nonempty sequence constructs exactly one handle, on its first
call, and hands that same handle to every invocation. -/
theorem C3_memoized (opts : PluginOptions) (dbs : List Nat) :
    (runCalls opts none dbs).2.1 ≤ 1 ∧
    (∀ e, runCalls opts (some e) dbs = (some e, 0, dbs.map fun _ => e)) ∧
    (∀ d rest, dbs = d :: rest →
      runCalls opts none dbs =
        (some (buildExtension opts d), 1,
          buildExtension opts d :: rest.map fun _ => buildExtension opts d)) := by
  have hcons : ∀ d rest, runCalls opts none (d :: rest) =
      (some (buildExtension opts d), 1,
        buildExtension opts d :: rest.map fun _ => buildExtension opts d) := by
    intro d rest
    simp [runCalls, getExtension, runCalls_some opts (buildExtension opts d) rest]
  refine ⟨?_, fun e => runCalls_some opts e dbs, fun d rest h => h ▸ hcons d rest⟩
  cases dbs with
  | nil => simp [runCalls]
  | cons d rest => simp [hcons d rest]

/-- C3 witness: a concrete two-call sequence over distinct db values
constructs once and returns the first-call handle both times. -/
theorem C3_memoized_witness :
    runCalls ⟨some "Badge", none⟩ none [5, 7] =
      (some (buildExtension ⟨some "Badge", none⟩ 5), 1,
        buildExtension ⟨some "Badge", none⟩ 5 ::
          [7].map fun _ => buildExtension ⟨some "Badge", none⟩ 5) :=
  (C3_memoized ⟨some "Badge", none⟩ [5, 7]).2.2 5 [7] rfl

/-- C4: with table name `Badge` and an owner of identity `abc123`, the
query object handed to the persistence create carries
`modelId = abc123` (whatever the caller options were, provided they do
not set `type`); applying the extension schema defaults built by
`getExtension` gives the persisted record `type = badge`, the lowercased
table name, while keeping `modelId = abc123`; and the create result is
reported unmodified through the callback. -/
theorem C4_create_record (db : ExtDb) (o? : Option Obj) (dbId : Nat)
    (htype : getField (o?.getD []) "type" = none) :
    getField (setField (o?.getD []) "modelId" "abc123") "modelId" = some "abc123" ∧
    getField (applyDefaults (buildExtension ⟨some "Badge", none⟩ dbId).fields
      (setField (o?.getD []) "modelId" "abc123")) "type" = some "badge" ∧
    getField (applyDefaults (buildExtension ⟨some "Badge", none⟩ dbId).fields
      (setField (o?.getD []) "modelId" "abc123")) "modelId" = some "abc123" ∧
    createMethodInstance db ⟨"abc123"⟩ o? =
      Outcome.callback (db.create (setField (o?.getD []) "modelId" "abc123")).1
        (db.create (setField (o?.getD []) "modelId" "abc123")).2 := by
  have hq : getField (setField (o?.getD []) "modelId" "abc123") "type" = none := by
    rw [getField_setField_other _ _ _ _ (by decide)]
    exact htype
  have hfields : (buildExtension ⟨some "Badge", none⟩ dbId).fields =
      [("type", FieldSpec.stringWithDefault "badge"), ("modelId", FieldSpec.plainString)] := by
    rfl
  have happ : applyDefaults (buildExtension ⟨some "Badge", none⟩ dbId).fields
      (setField (o?.getD []) "modelId" "abc123") =
      setField (o?.getD []) "modelId" "abc123" ++ [("type", "badge")] := by
    rw [hfields]
    simp only [applyDefaults, List.foldl_cons, List.foldl_nil, hq]
    simp
  refine ⟨getField_setField_same _ _ _, ?_, ?_, rfl⟩
  · rw [happ, getField_append, hq]
    rfl
  · rw [happ, getField_append, getField_setField_same]
    rfl

/-- C4 witness: concrete evaluation with caller options carrying one
extra field and no `type`. -/
theorem C4_create_record_witness :
    getField (setField ((some [("points", "10")] : Option Obj).getD [])
      "modelId" "abc123") "modelId" = some "abc123" ∧
    getField (applyDefaults (buildExtension ⟨some "Badge", none⟩ 0).fields
      (setField ((some [("points", "10")] : Option Obj).getD [])
        "modelId" "abc123")) "type" = some "badge" ∧
    getField (applyDefaults (buildExtension ⟨some "Badge", none⟩ 0).fields
      (setField ((some [("points", "10")] : Option Obj).getD [])
        "modelId" "abc123")) "modelId" = some "abc123" ∧
    createMethodInstance echoDb ⟨"abc123"⟩ (some [("points", "10")]) =
      Outcome.callback
        (echoDb.create (setField ((some [("points", "10")] : Option Obj).getD [])
          "modelId" "abc123")).1
        (echoDb.create (setField ((some [("points", "10")] : Option Obj).getD [])
          "modelId" "abc123")).2 :=
  C4_create_record echoDb (some [("points", "10")]) 0 rfl

/-- C5: when the find-by filter matches exactly one auxiliary record
`rec`, the handler resolves the owning model by querying it with the
`modelId` of `rec` and reports that resolution, error slot and all,
through the callback; in particular a successful resolution delivers
the owning record with a null error. -/
theorem C5_findBy_resolves (db : ExtDb) (cls : ModelCls) (o rec : Obj)
    (hfind : db.findOne o = (none, some rec)) :
    findByMethodStatic db cls o =
      Outcome.callback (cls.findOneById (getField rec "modelId")).1
        (cls.findOneById (getField rec "modelId")).2 ∧
    (∀ owner, cls.findOneById (getField rec "modelId") = (none, some owner) →
      findByMethodStatic db cls o = Outcome.callback none (some owner)) := by
  have h1 : findByMethodStatic db cls o =
      Outcome.callback (cls.findOneById (getField rec "modelId")).1
        (cls.findOneById (getField rec "modelId")).2 := by
    simp [findByMethodStatic, hfind, findModel]
  refine ⟨h1, fun owner how => ?_⟩
  rw [h1, how]

/-- C5 witness: a seeded persistence behaviour whose single auxiliary
record references owner `abc123`; find-by delivers that owner with a
null error. -/
theorem C5_findBy_resolves_witness :
    findByMethodStatic seededDb dummyCls [("_id", "b1")] =
      Outcome.callback none (some [("_id", "abc123")]) :=
  (C5_findBy_resolves seededDb dummyCls [("_id", "b1")]
    [("_id", "b1"), ("modelId", "abc123")] rfl).2 [("_id", "abc123")] rfl

/-- C6 counterexample: the static find handler passes the caller
filter to the persistence find unchanged; with an echoing behaviour the
issued query is observed to carry no `modelId` at all, so no injection
happened. -/
theorem C6_counterexample :
    findMethodStatic echoDb [("color", "red")] =
      Outcome.callback none (some [[("color", "red")]]) ∧
    getField [("color", "red")] "modelId" = none :=
  ⟨rfl, rfl⟩

/-- C6 (amended): the instance find handler overwrites any
caller-supplied `modelId` with the instance identity before issuing the
query; the static find handler issues the caller filter unchanged, with
no `modelId` injection. -/
theorem C6_find_filter (db : ExtDb) (this : MDoc) (o : Obj) :
    getField (setField o "modelId" this._id) "modelId" = some this._id ∧
    findMethodInstance db this o =
      Outcome.callback (db.find (setField o "modelId" this._id)).1
        (db.find (setField o "modelId" this._id)).2 ∧
    findMethodStatic db o = Outcome.callback (db.find o).1 (db.find o).2 :=
  ⟨getField_setField_same o "modelId" this._id, rfl, rfl⟩

/-- C7 counterexample: a registry already holding `findBadge` among its
instance methods, and a registry already holding `createBadge` among
its statics, are both accepted without any duplicate-name error when
attaching with table name `Badge`. -/
theorem C7_counterexample :
    (Extension ⟨["findBadge"], []⟩ ⟨some "Badge", none⟩).1 = none ∧
    (Extension ⟨[], ["createBadge"]⟩ ⟨some "Badge", none⟩).1 = none := by
  decide

/-- C7 (amended): with a nonempty table name, the duplicate-name error
is raised exactly when the instance method registry already holds the
derived create-method name; no other derived name and no static entry
is consulted by the guard. -/
theorem C7_duplicate_guard (schema : Schema) (name : String)
    (frag : Option (List (String × FieldSpec))) (hne : name ≠ "") :
    (Extension schema ⟨some name, frag⟩).1 = some ConfigError.notUnique ↔
      CREATE_METHOD name ∈ schema.methods := by
  have hf : tableNameFalsy (some name) = false := by
    simp [tableNameFalsy, hne]
  by_cases h : CREATE_METHOD name ∈ schema.methods
  · simp [Extension, hf, h]
  · simp [Extension, hf, h]

/-- C7 witness: attaching `Badge` onto a registry whose instance
methods already include `createBadge` raises the duplicate error. -/
theorem C7_duplicate_guard_witness :
    (Extension ⟨["createBadge"], []⟩ ⟨some "Badge", none⟩).1 =
      some ConfigError.notUnique :=
  (C7_duplicate_guard ⟨["createBadge"], []⟩ "Badge" none (by decide)).mpr
    (by decide)

/-- C8: whenever the configured table name is falsy (absent or empty),
attachment throws the missing-table-name configuration error and the
registries are returned exactly as given, with no method added. -/
theorem C8_missing_tableName (schema : Schema) (opts : PluginOptions)
    (h : tableNameFalsy opts.tableName = true) :
    Extension schema opts = (some ConfigError.missingTableName, schema) := by
  unfold Extension
  simp [h]

/-- C8 witness: a populated registry attached with an absent table name
is returned untouched alongside the error. -/
theorem C8_missing_tableName_witness :
    Extension ⟨["x"], ["y"]⟩ ⟨none, none⟩ =
      (some ConfigError.missingTableName, ⟨["x"], ["y"]⟩) :=
  C8_missing_tableName ⟨["x"], ["y"]⟩ ⟨none, none⟩ rfl

/-- C9: the find-by handler depends only on the result slot of the
persistence findOne, never on its error slot, applying `findModel`
unconditionally to the possibly-null result; when the result is null
(the error case and the no-match case alike) the handler throws and the
callback is never invoked, with the persistence error or otherwise. -/
theorem C9_findBy_ignores_error (db : ExtDb) (cls : ModelCls) (o : Obj) :
    findByMethodStatic db cls o = findByFromResult cls (db.findOne o).2 ∧
    ((db.findOne o).2 = none →
      findByMethodStatic db cls o = Outcome.thrown findByNullMsg) := by
  constructor
  · cases h : (db.findOne o).2 <;>
      simp [findByMethodStatic, findByFromResult, h]
  · intro h
    simp [findByMethodStatic, h]

/-- C9 witness: an erroring persistence behaviour makes the find-by
handler throw rather than call back. -/
theorem C9_findBy_ignores_error_witness :
    findByMethodStatic errDb dummyCls [("a", "b")] = Outcome.thrown findByNullMsg :=
  (C9_findBy_ignores_error errDb dummyCls [("a", "b")]).2 rfl

/-- C10: the static create handler has no owning-record parameter; the
receiver class itself is the owner, so the query object handed to the
persistence create carries the class `_id` as `modelId`; the static
remove handler instead takes the owning record as an explicit first
argument and uses its `_id`. -/
theorem C10_static_create_owner (db : ExtDb) (cls : ModelCls) (model : MDoc)
    (o : Obj) :
    createMethodStatic db cls (some o) =
      Outcome.callback (db.create (setField o "modelId" cls.doc._id)).1
        (db.create (setField o "modelId" cls.doc._id)).2 ∧
    getField (setField o "modelId" cls.doc._id) "modelId" = some cls.doc._id ∧
    removeMethodStatic db model (some o) =
      Outcome.callback (db.remove (setField o "modelId" model._id)).1
        (db.remove (setField o "modelId" model._id)).2 ∧
    getField (setField o "modelId" model._id) "modelId" = some model._id :=
  ⟨rfl, getField_setField_same o "modelId" cls.doc._id, rfl,
    getField_setField_same o "modelId" model._id⟩

end MongooseExtension
